import Mathlib

/-!
Shallow embedding of `linux/kstrtox.c` (string-to-integer and
string-to-boolean parsing routines) and proofs about it.

Conventions of the embedding:
* C strings are `List Nat` of byte values; the NUL terminator is the end
  of the list (reading past the end with `List.getD _ 0` yields the
  terminator byte 0, as dereferencing the terminator does in C).
* `unsigned long long` values are `Nat` reduced `% 2^64` wherever the C
  arithmetic can wrap; `unsigned int` counters are reduced `% 2^32`.
* `long long` values are `Int` in `[-2^63, 2^63)`; reinterpreting a u64
  bit pattern as signed is `toSigned64`.
* Each C function writing `*res` only on success is modelled with an
  explicit result-slot argument: it takes the pre-call slot contents and
  returns `(return code, post-call slot contents)`.
-/

namespace Kstrtox

/-- errno value EINVAL (22); the C functions return `-EINVAL`. -/
def EINVAL : Int := 22

/-- errno value ERANGE (34); the C functions return `-ERANGE`. -/
def ERANGE : Int := 34

/-- `2^64`, the modulus of `unsigned long long` arithmetic. -/
def U64_MOD : Nat := 2 ^ 64

/-- `2^32`, the modulus of `unsigned int` arithmetic. -/
def U32_MOD : Nat := 2 ^ 32

/-- `ULLONG_MAX = 2^64 - 1`. -/
def ULLONG_MAX : Nat := 2 ^ 64 - 1

/-- `#define KSTRTOX_OVERFLOW (1U << 31)`. -/
def KSTRTOX_OVERFLOW : Nat := 1 <<< 31

/-- The C expression `~0ull << 60` (wrapped to 64 bits), the guard mask
in `_parse_integer`. -/
def HIGH_MASK : Nat := (ULLONG_MAX <<< 60) % U64_MOD

/-- Modelled from the spec: the kernel ctype helper `_tolower` (its header
is not under `src/`), which case-folds by setting bit 5; on the ranges the
parser tests (`'x'`, `'a'..'f'`) this realizes the spec's case-insensitive
treatment of hex letters and the `0x`/`0X` prefix. -/
def _tolower (c : Nat) : Nat := c ||| 0x20

/-- Modelled from the spec: ctype `isxdigit` (header not under `src/`):
a character is a hex digit iff it is `0-9`, `a-f` or `A-F`. -/
def isxdigit (c : Nat) : Bool :=
  (48 ≤ c ∧ c ≤ 57) ∨ (97 ≤ c ∧ c ≤ 102) ∨ (65 ≤ c ∧ c ≤ 70)

/-- Embeds `_parse_integer_fixup_radix`: resolve base 0 by the string's
prefix (`0x`+hexdigit → 16, other leading `0` → 8, else 10), then skip a
leading `0x`/`0X` whenever the effective base is 16. Returns the advanced
string and the effective base. -/
def _parse_integer_fixup_radix (s : List Nat) (base : Nat) : List Nat × Nat :=
  let base2 :=
    if base = 0 then
      if s.getD 0 0 = 48 then
        if _tolower (s.getD 1 0) = 120 ∧ isxdigit (s.getD 2 0) then 16 else 8
      else 10
    else base
  if base2 = 16 ∧ s.getD 0 0 = 48 ∧ _tolower (s.getD 1 0) = 120 then
    (s.drop 2, base2)
  else (s, base2)

/-- The digit classification performed at the top of `_parse_integer`'s
loop body: `'0'..'9'` give their value, letters whose `_tolower` image is
in `'a'..'f'` give 10..15, anything else stops the scan. -/
def digitVal (c : Nat) : Option Nat :=
  if 48 ≤ c ∧ c ≤ 57 then some (c - 48)
  else if 97 ≤ _tolower c ∧ _tolower c ≤ 102 then some (_tolower c - 97 + 10)
  else none

/-- Embeds the loop of `_parse_integer`: state is the remaining string,
the base, and the C locals `res` (u64), `rv` (u32 count) and `overflow`.
Each step transcribes the loop body, including the source's overflow test
`res > ULLONG_MAX - val / base` (which, as in C, parses as
`ULLONG_MAX - (val / base)`). Returns the final `(res, rv, overflow)`. -/
def parseIntLoop : List Nat → Nat → Nat → Nat → Bool → Nat × Nat × Bool
  | [], _, res, rv, overflow => (res, rv, overflow)
  | c :: s, base, res, rv, overflow =>
    match digitVal c with
    | none => (res, rv, overflow)
    | some val =>
      if val ≥ base then (res, rv, overflow)
      else
        let overflow2 :=
          if res &&& HIGH_MASK ≠ 0 then
            if res > ULLONG_MAX - val / base then true else overflow
          else overflow
        parseIntLoop s base ((res * base + val) % U64_MOD) ((rv + 1) % U32_MOD)
          overflow2

/-- Embeds `_parse_integer`: run the accumulation loop from `res = 0`,
`rv = 0`, `overflow = 0`; return the consumed count (or-ed with
`KSTRTOX_OVERFLOW` when the flag was set) and the accumulated value
(which is stored through `*p` unconditionally). -/
def _parse_integer (s : List Nat) (base : Nat) : Nat × Nat :=
  match parseIntLoop s base 0 0 false with
  | (res, rv, overflow) =>
    (if overflow then rv ||| KSTRTOX_OVERFLOW else rv, res)

/-- Embeds `_kstrtoull`: fix up the radix, accumulate, map the overflow
bit to `-ERANGE`, an empty scan to `-EINVAL`, skip one optional trailing
newline, reject any other trailing character with `-EINVAL`, and only on
the success path store the value into the result slot. -/
def _kstrtoull (s : List Nat) (base : Nat) (slot : Nat) : Int × Nat :=
  match _parse_integer_fixup_radix s base with
  | (s2, base2) =>
    match _parse_integer s2 base2 with
    | (rv, res) =>
      if rv &&& KSTRTOX_OVERFLOW ≠ 0 then (-ERANGE, slot)
      else if rv = 0 then (-EINVAL, slot)
      else
        let s3 := s2.drop rv
        let s4 := if s3.getD 0 0 = 10 then s3.drop 1 else s3
        if s4.getD 0 0 ≠ 0 then (-EINVAL, slot)
        else ((0 : Int), res)

/-- The `+`-stripping done at the top of `kstrtoull`. -/
def afterPlus (s : List Nat) : List Nat :=
  if s.getD 0 0 = 43 then s.drop 1 else s

/-- Embeds `kstrtoull`: strip one leading `+`, then `_kstrtoull`. -/
def kstrtoull (s : List Nat) (base : Nat) (slot : Nat) : Int × Nat :=
  _kstrtoull (afterPlus s) base slot

/-- Reinterpret a u64 bit pattern as a two's-complement `long long`. -/
def toSigned64 (n : Nat) : Int :=
  if n % U64_MOD < 2 ^ 63 then ((n % U64_MOD : Nat) : Int)
  else ((n % U64_MOD : Nat) : Int) - (U64_MOD : Int)

/-- Embeds `kstrtoll`: a leading `-` sends the remainder to the internal
`_kstrtoull` (note: not the public `kstrtoull`), then the C checks
`(long long)-tmp > 0` (reject) and stores `-tmp`; otherwise the public
`kstrtoull` runs and `(long long)tmp < 0` is rejected. The u64 negation
`-tmp` wraps modulo `2^64`. -/
def kstrtoll (s : List Nat) (base : Nat) (slot : Int) : Int × Int :=
  if s.getD 0 0 = 45 then
    match _kstrtoull (s.drop 1) base 0 with
    | (rv, tmp) =>
      if rv < 0 then (rv, slot)
      else
        let neg := (U64_MOD - tmp % U64_MOD) % U64_MOD
        if toSigned64 neg > 0 then (-ERANGE, slot)
        else ((0 : Int), toSigned64 neg)
  else
    match kstrtoull s base 0 with
    | (rv, tmp) =>
      if rv < 0 then (rv, slot)
      else if toSigned64 tmp < 0 then (-ERANGE, slot)
      else ((0 : Int), toSigned64 tmp)

/-- The generic shape shared by the unsigned width-narrowing wrappers
(`kstrtouint` at width 32, `kstrtou16`, `kstrtou8`, and `_kstrtoul` at
the LP64 `unsigned long` width 64): parse as u64, reject with `-ERANGE`
when truncating to `w` bits and widening back changes the value, else
store the truncation. -/
def kstrtou_w (w : Nat) (s : List Nat) (base : Nat) (slot : Nat) : Int × Nat :=
  match kstrtoull s base 0 with
  | (rv, tmp) =>
    if rv < 0 then (rv, slot)
    else if tmp ≠ tmp % 2 ^ w then (-ERANGE, slot)
    else ((0 : Int), tmp % 2 ^ w)

/-- Truncate a signed value to `w`-bit two's complement (the C cast of a
`long long` to a narrower signed type, gcc/clang semantics). -/
def wrapS (w : Nat) (x : Int) : Int :=
  let m := x % ((2 : Int) ^ w)
  if m < 2 ^ (w - 1) then m else m - 2 ^ w

/-- The generic shape shared by the signed width-narrowing wrappers
(`kstrtoint` at width 32, `kstrtos16`, `kstrtos8`, and `_kstrtol` at the
LP64 `long` width 64): parse as i64, reject with `-ERANGE` when the
narrow-and-widen round trip changes the value, else store it. -/
def kstrtos_w (w : Nat) (s : List Nat) (base : Nat) (slot : Int) : Int × Int :=
  match kstrtoll s base 0 with
  | (rv, tmp) =>
    if rv < 0 then (rv, slot)
    else if tmp ≠ wrapS w tmp then (-ERANGE, slot)
    else ((0 : Int), wrapS w tmp)

/-- Embeds `kstrtouint` (target `unsigned int`, 32 bits). -/
def kstrtouint : List Nat → Nat → Nat → Int × Nat := kstrtou_w 32

/-- Embeds `kstrtou16`. -/
def kstrtou16 : List Nat → Nat → Nat → Int × Nat := kstrtou_w 16

/-- Embeds `kstrtou8`. -/
def kstrtou8 : List Nat → Nat → Nat → Int × Nat := kstrtou_w 8

/-- Embeds `_kstrtoul` (target `unsigned long`, 64 bits on LP64). -/
def _kstrtoul : List Nat → Nat → Nat → Int × Nat := kstrtou_w 64

/-- Embeds `kstrtoint` (target `int`, 32 bits). -/
def kstrtoint : List Nat → Nat → Int → Int × Int := kstrtos_w 32

/-- Embeds `kstrtos16`. -/
def kstrtos16 : List Nat → Nat → Int → Int × Int := kstrtos_w 16

/-- Embeds `kstrtos8`. -/
def kstrtos8 : List Nat → Nat → Int → Int × Int := kstrtos_w 8

/-- Embeds `_kstrtol` (target `long`, 64 bits on LP64). -/
def _kstrtol : List Nat → Nat → Int → Int × Int := kstrtos_w 64

/-- Embeds `kstrtobool`: switch on the first character (`y`/`Y`/`1` true,
`n`/`N`/`0` false), and for `o`/`O` on the second (`n`/`N` true,
`f`/`F` false); everything else falls through to `-EINVAL` without
touching the slot. -/
def kstrtobool (s : List Nat) (slot : Bool) : Int × Bool :=
  let c0 := s.getD 0 0
  if c0 = 121 ∨ c0 = 89 ∨ c0 = 49 then ((0 : Int), true)
  else if c0 = 110 ∨ c0 = 78 ∨ c0 = 48 then ((0 : Int), false)
  else if c0 = 111 ∨ c0 = 79 then
    let c1 := s.getD 1 0
    if c1 = 110 ∨ c1 = 78 then ((0 : Int), true)
    else if c1 = 102 ∨ c1 = 70 then ((0 : Int), false)
    else (-EINVAL, slot)
  else (-EINVAL, slot)

/-- Byte list of an ASCII string literal, for concrete test inputs. -/
def cstr (s : String) : List Nat := s.data.map Char.toNat

/-- The length of the maximal leading run of characters that are valid
base-`base` digits (the characters `_parse_integer` consumes). -/
def digitRun : List Nat → Nat → Nat
  | [], _ => 0
  | c :: s, base =>
    match digitVal c with
    | none => 0
    | some val => if val ≥ base then 0 else digitRun s base + 1

/-- The string `_parse_integer` actually scans inside `kstrtoull`:
the input after `+`-stripping and radix fixup. -/
def effStr (s : List Nat) (base : Nat) : List Nat :=
  (Kstrtox._parse_integer_fixup_radix (afterPlus s) base).1

/-- The effective base `_parse_integer` is run with inside `kstrtoull`. -/
def effBase (s : List Nat) (base : Nat) : Nat :=
  (Kstrtox._parse_integer_fixup_radix (afterPlus s) base).2

/-- How many digit characters a `kstrtoull` call consumes. -/
def consumed (s : List Nat) (base : Nat) : Nat :=
  digitRun (effStr s base) (effBase s base)

/-- What remains after the digits a `kstrtoull` call consumes. -/
def restAfter (s : List Nat) (base : Nat) : List Nat :=
  (effStr s base).drop (consumed s base)

/-- Behaviour of the accumulation loop started with a clear overflow flag:
the flag stays clear forever (the source's test `res > ULLONG_MAX - val / base`
is `res > ULLONG_MAX - (val / base)` with `val < base`, hence `res > ULLONG_MAX`,
which a value kept below `2^64` never satisfies), the count advances by the
length of the maximal digit run modulo `2^32`, and the accumulated value
stays below `2^64`. -/
theorem parseIntLoop_spec (s : List Nat) (base : Nat) :
    ∀ res rv, res < U64_MOD → rv < U32_MOD →
      (parseIntLoop s base res rv false).1 < U64_MOD ∧
      (parseIntLoop s base res rv false).2.1 = (rv + digitRun s base) % U32_MOD ∧
      (parseIntLoop s base res rv false).2.2 = false := by
  induction s with
  | nil =>
    intro res rv hres hrv
    simp [parseIntLoop, digitRun, Nat.mod_eq_of_lt hrv, hres]
  | cons c t ih =>
    intro res rv hres hrv
    cases hdv : digitVal c with
    | none =>
      simp [parseIntLoop, digitRun, hdv, Nat.mod_eq_of_lt hrv, hres]
    | some val =>
      by_cases hvb : val ≥ base
      · simp [parseIntLoop, digitRun, hdv, hvb, Nat.mod_eq_of_lt hrv, hres]
      · have hval : val / base = 0 := Nat.div_eq_of_lt (lt_of_not_ge hvb)
        have hcond : ¬ (res > ULLONG_MAX - val / base) := by
          rw [hval]
          unfold ULLONG_MAX
          unfold U64_MOD at hres
          omega
        have hres2 : (res * base + val) % U64_MOD < U64_MOD :=
          Nat.mod_lt _ (by unfold U64_MOD; positivity)
        have hrv2 : (rv + 1) % U32_MOD < U32_MOD :=
          Nat.mod_lt _ (by unfold U32_MOD; positivity)
        have hmain := ih ((res * base + val) % U64_MOD) ((rv + 1) % U32_MOD) hres2 hrv2
        have hstep : parseIntLoop (c :: t) base res rv false =
            parseIntLoop t base ((res * base + val) % U64_MOD)
              ((rv + 1) % U32_MOD) false := by
          simp only [parseIntLoop, hdv, if_neg hvb]
          rw [if_neg hcond]
          simp
        have hrun : digitRun (c :: t) base = digitRun t base + 1 := by
          simp [digitRun, hdv, hvb]
        refine ⟨by rw [hstep]; exact hmain.1, ?_, by rw [hstep]; exact hmain.2.2⟩
        rw [hstep, hmain.2.1, hrun]
        simp only [U32_MOD]
        omega

/-- The consumed-count output of `_parse_integer` never carries the
overflow bit: it is just the digit-run length reduced modulo `2^32`. -/
theorem _parse_integer_rv (s : List Nat) (base : Nat) :
    (Kstrtox._parse_integer s base).1 = digitRun s base % U32_MOD := by
  have h := parseIntLoop_spec s base 0 0 (by unfold U64_MOD; positivity)
    (by unfold U32_MOD; positivity)
  unfold _parse_integer
  rcases hp : parseIntLoop s base 0 0 false with ⟨res, rv, ov⟩
  rw [hp] at h
  simp at h
  simp [h.2.2, h.2.1]

/-- The value output of `_parse_integer` is a valid u64. -/
theorem _parse_integer_res_lt (s : List Nat) (base : Nat) :
    (Kstrtox._parse_integer s base).2 < U64_MOD := by
  have h := parseIntLoop_spec s base 0 0 (by unfold U64_MOD; positivity)
    (by unfold U32_MOD; positivity)
  unfold _parse_integer
  rcases hp : parseIntLoop s base 0 0 false with ⟨res, rv, ov⟩
  rw [hp] at h
  simpa using h.1

/-- A count below `2^31` has a clear `KSTRTOX_OVERFLOW` bit. -/
theorem and_overflow_eq_zero {n : Nat} (h : n < 2 ^ 31) :
    n &&& KSTRTOX_OVERFLOW = 0 := by
  have h31 : KSTRTOX_OVERFLOW = 2 ^ 31 := by decide
  rw [h31, Nat.and_two_pow, Nat.testBit_eq_false_of_lt h]
  simp

/-- C1: the accumulator's returned count never carries the overflow bit
(the source's test `res > ULLONG_MAX - val / base` subtracts
`val / base = 0`, so it compares `res` against `ULLONG_MAX` and never
fires), contradicting the claim that the flag is set exactly when the
consumed digits' value exceeds `2^64 - 1`: on the decimal text of `2^64`
the accumulator consumes all 20 digits, stores the wrapped value 0, and
returns the bare count 20 with no overflow indication. -/
theorem C1_overflow_flag_dead :
    (∀ s base, (Kstrtox._parse_integer s base).1 = digitRun s base % U32_MOD) ∧
    Kstrtox._parse_integer (cstr "18446744073709551616") 10 = (20, 0) ∧
    (20 : Nat) &&& KSTRTOX_OVERFLOW = 0 ∧
    ULLONG_MAX < 18446744073709551616 :=
  ⟨Kstrtox._parse_integer_rv, by decide, by decide, by decide⟩

/-- C2: `kstrtoull` accepts the decimal text of `2^64` (returning the
wrapped value 0) instead of failing with `-ERANGE`, because the dead
overflow check never flags; the text of `2^64 - 1` does parse to
`2^64 - 1` as claimed. -/
theorem C2_kstrtoull_missing_range :
    kstrtoull (cstr "18446744073709551615") 10 0 = (0, ULLONG_MAX) ∧
    kstrtoull (cstr "18446744073709551616") 10 0 = (0, 0) ∧
    ((0 : Int), (0 : Nat)) ≠ (-ERANGE, 0) := by
  refine ⟨by decide, by decide, by decide⟩

/-- C10: the base argument is never validated: `kstrtoull` only ever
returns success, `-EINVAL` or `-ERANGE` (no base error exists), base 1
accepts `"0"` as 0, and base 17 accepts `"10"` as 17 (the base is the
place-value multiplier for any digit below it). -/
theorem C10_base_not_validated :
    kstrtoull (cstr "0") 1 0 = (0, 0) ∧
    kstrtoull (cstr "10") 17 0 = (0, 17) ∧
    (∀ s base slot, (kstrtoull s base slot).1 = 0 ∨
      (kstrtoull s base slot).1 = -EINVAL ∨ (kstrtoull s base slot).1 = -ERANGE) := by
  refine ⟨by decide, by decide, ?_⟩
  intro s base slot
  unfold kstrtoull _kstrtoull
  rcases Kstrtox._parse_integer_fixup_radix (afterPlus s) base with ⟨s2, b2⟩
  rcases Kstrtox._parse_integer s2 b2 with ⟨rv, res⟩
  dsimp only
  split_ifs <;> simp

/-- C9: `kstrtobool` inspects at most the first two characters — any two
inputs agreeing there behave identically, so trailing content never
causes failure; `y`/`Y`/`1` yield true, `n`/`N`/`0` yield false, `o`/`O`
followed by `n`/`N` yields true and by `f`/`F` yields false, and every
other input (including the empty string) fails with `-EINVAL`. -/
theorem C9_kstrtobool :
    (∀ (s t : List Nat) (slot : Bool), s.getD 0 0 = t.getD 0 0 →
      s.getD 1 0 = t.getD 1 0 → kstrtobool s slot = kstrtobool t slot) ∧
    (∀ s slot, s.getD 0 0 = 121 ∨ s.getD 0 0 = 89 ∨ s.getD 0 0 = 49 →
      kstrtobool s slot = (0, true)) ∧
    (∀ s slot, s.getD 0 0 = 110 ∨ s.getD 0 0 = 78 ∨ s.getD 0 0 = 48 →
      kstrtobool s slot = (0, false)) ∧
    (∀ s slot, s.getD 0 0 = 111 ∨ s.getD 0 0 = 79 →
      (s.getD 1 0 = 110 ∨ s.getD 1 0 = 78 → kstrtobool s slot = (0, true)) ∧
      (s.getD 1 0 = 102 ∨ s.getD 1 0 = 70 → kstrtobool s slot = (0, false)) ∧
      (s.getD 1 0 ∉ ([110, 78, 102, 70] : List Nat) →
        kstrtobool s slot = (-EINVAL, slot))) ∧
    (∀ s slot, s.getD 0 0 ∉ ([121, 89, 49, 110, 78, 48, 111, 79] : List Nat) →
      kstrtobool s slot = (-EINVAL, slot)) ∧
    kstrtobool (cstr "On") false = (0, true) ∧
    kstrtobool (cstr "OFF") true = (0, false) ∧
    kstrtobool (cstr "Y") false = (0, true) ∧
    kstrtobool (cstr "0") true = (0, false) ∧
    kstrtobool (cstr "x") true = (-EINVAL, true) ∧
    kstrtobool (cstr "") false = (-EINVAL, false) := by
  refine ⟨?_, ?_, ?_, ?_, ?_, by decide, by decide, by decide, by decide,
    by decide, by decide⟩
  · intro s t slot h0 h1
    simp only [kstrtobool, h0, h1]
  · intro s slot h
    rcases h with h | h | h <;> (simp only [kstrtobool]; rw [h]) <;> norm_num
  · intro s slot h
    rcases h with h | h | h <;> (simp only [kstrtobool]; rw [h]) <;> norm_num
  · intro s slot h
    refine ⟨?_, ?_, ?_⟩
    · intro h1
      rcases h with h | h <;> rcases h1 with h1 | h1 <;>
        (simp only [kstrtobool]; rw [h, h1]) <;> norm_num
    · intro h1
      rcases h with h | h <;> rcases h1 with h1 | h1 <;>
        (simp only [kstrtobool]; rw [h, h1]) <;> norm_num
    · intro h1
      simp only [List.mem_cons, List.not_mem_nil, or_false, not_or] at h1
      obtain ⟨n1, n2, n3, n4⟩ := h1
      have ha : ¬(s.getD 1 0 = 110 ∨ s.getD 1 0 = 78) := by tauto
      have hb : ¬(s.getD 1 0 = 102 ∨ s.getD 1 0 = 70) := by tauto
      rcases h with h | h <;>
        (simp only [kstrtobool]; rw [h, if_neg ha, if_neg hb]) <;> norm_num
  · intro s slot h
    simp only [List.mem_cons, List.not_mem_nil, or_false, not_or] at h
    obtain ⟨n1, n2, n3, n4, n5, n6, n7, n8⟩ := h
    have h1 : ¬(s.getD 0 0 = 121 ∨ s.getD 0 0 = 89 ∨ s.getD 0 0 = 49) := by tauto
    have h2 : ¬(s.getD 0 0 = 110 ∨ s.getD 0 0 = 78 ∨ s.getD 0 0 = 48) := by tauto
    have h3 : ¬(s.getD 0 0 = 111 ∨ s.getD 0 0 = 79) := by tauto
    simp only [kstrtobool]
    rw [if_neg h1, if_neg h2, if_neg h3]

/-- C5: with base 0, a leading `0` followed by `x`/`X` and a hex digit
selects base 16 (and the prefix is skipped), any other leading `0`
selects base 8, anything else selects base 10; whenever the effective
base is 16 — including caller-supplied base 16 — a leading `0x` prefix
is skipped; consequently base-0 parsing maps `"0x1A"` to 26, `"017"` to
15, `"10"` to 10 and `"0"` to 0. -/
theorem C5_radix_resolution :
    (∀ s : List Nat, s.getD 0 0 = 48 → _tolower (s.getD 1 0) = 120 →
      isxdigit (s.getD 2 0) = true →
      Kstrtox._parse_integer_fixup_radix s 0 = (s.drop 2, 16)) ∧
    (∀ s : List Nat, s.getD 0 0 = 48 →
      ¬(_tolower (s.getD 1 0) = 120 ∧ isxdigit (s.getD 2 0) = true) →
      Kstrtox._parse_integer_fixup_radix s 0 = (s, 8)) ∧
    (∀ s : List Nat, s.getD 0 0 ≠ 48 →
      Kstrtox._parse_integer_fixup_radix s 0 = (s, 10)) ∧
    (∀ s : List Nat, s.getD 0 0 = 48 → _tolower (s.getD 1 0) = 120 →
      Kstrtox._parse_integer_fixup_radix s 16 = (s.drop 2, 16)) ∧
    kstrtoull (cstr "0x1A") 0 0 = (0, 26) ∧
    kstrtoull (cstr "017") 0 0 = (0, 15) ∧
    kstrtoull (cstr "10") 0 0 = (0, 10) ∧
    kstrtoull (cstr "0") 0 0 = (0, 0) := by
  refine ⟨?_, ?_, ?_, ?_, by decide, by decide, by decide, by decide⟩
  · intro s h0 h1 h2
    simp only [Kstrtox._parse_integer_fixup_radix]
    rw [h0, h1, h2]
    norm_num
  · intro s h0 hn
    simp only [Kstrtox._parse_integer_fixup_radix]
    rw [h0, if_neg hn]
    norm_num
  · intro s h0
    simp only [Kstrtox._parse_integer_fixup_radix]
    rw [if_neg h0]
    simp [h0]
  · intro s h0 h1
    simp only [Kstrtox._parse_integer_fixup_radix]
    rw [h0, h1]
    norm_num

/-- C5 witness: the autodetection rule of `C5_radix_resolution` applied
to the concrete string `"0x1A"`, whose prefix selects base 16 with the
prefix skipped. -/
theorem C5_radix_resolution_witness :
    Kstrtox._parse_integer_fixup_radix (cstr "0x1A") 0 = ((cstr "0x1A").drop 2, 16) :=
  C5_radix_resolution.1 (cstr "0x1A") (by decide) (by decide) (by decide)

/-- C9 witness: `C9_kstrtobool`'s first-character rule at the concrete
input `"yes means true"`, whose trailing content is ignored. -/
theorem C9_kstrtobool_witness :
    kstrtobool (cstr "yes means true") false = (0, true) :=
  C9_kstrtobool.2.1 (cstr "yes means true") false (Or.inl (by decide))

/-- A value `_kstrtoull` reports success with is a valid u64. -/
theorem _kstrtoull_ok_lt {s : List Nat} {base slot v : Nat}
    (h : Kstrtox._kstrtoull s base slot = (0, v)) : v < U64_MOD := by
  unfold _kstrtoull at h
  rcases hfix : Kstrtox._parse_integer_fixup_radix s base with ⟨s2, b2⟩
  rw [hfix] at h
  dsimp only at h
  have hres := Kstrtox._parse_integer_res_lt s2 b2
  rcases hpi : Kstrtox._parse_integer s2 b2 with ⟨rv, res⟩
  rw [hpi] at h hres
  dsimp only at h hres
  split_ifs at h
  all_goals simp only [Prod.mk.injEq] at h
  all_goals first
    | exact h.2 ▸ hres
    | norm_num [ERANGE, EINVAL] at h

/-- A value `kstrtoull` reports success with is a valid u64. -/
theorem kstrtoull_ok_lt {s : List Nat} {base slot v : Nat}
    (h : kstrtoull s base slot = (0, v)) : v < U64_MOD :=
  Kstrtox._kstrtoull_ok_lt (by rw [kstrtoull] at h; exact h)

/-- Reinterpreting the wrapped u64 negation of a magnitude `v ≤ 2^63`
as signed yields exactly `-v`. -/
theorem toSigned64_wrap_neg {v : Nat} (h1 : v ≤ 2 ^ 63) :
    toSigned64 ((U64_MOD - v % U64_MOD) % U64_MOD) = -(v : Int) := by
  rcases Nat.eq_zero_or_pos v with hv0 | hv0
  · subst hv0
    norm_num [toSigned64, U64_MOD]
  · have hvlt : v < U64_MOD := by unfold U64_MOD; omega
    rw [Nat.mod_eq_of_lt hvlt]
    have hlt : U64_MOD - v < U64_MOD := by unfold U64_MOD at *; omega
    rw [Nat.mod_eq_of_lt hlt]
    unfold toSigned64
    rw [Nat.mod_eq_of_lt hlt]
    rw [if_neg (by unfold U64_MOD at *; omega)]
    have hcast : ((U64_MOD - v : Nat) : Int) = (U64_MOD : Int) - (v : Int) := by
      have : v ≤ U64_MOD := le_of_lt hvlt
      exact_mod_cast Int.ofNat_sub this
    rw [hcast]
    ring

/-- C3: `kstrtoll` at the asymmetric signed boundaries: the decimal text
of `-2^63` parses to `-2^63`, the text of `-(2^63 + 1)` fails with
`-ERANGE`, and any unsigned parse without a leading `-` whose value
exceeds `2^63 - 1` fails with `-ERANGE`. -/
theorem C3_kstrtoll_signed_boundaries :
    kstrtoll (cstr "-9223372036854775808") 10 0 = (0, -(2 ^ 63 : Int)) ∧
    kstrtoll (cstr "-9223372036854775809") 10 0 = (-ERANGE, 0) ∧
    (∀ (s : List Nat) (base : Nat) (slot : Int) (v : Nat), s.getD 0 0 ≠ 45 →
      kstrtoull s base 0 = (0, v) → 2 ^ 63 - 1 < v →
      kstrtoll s base slot = (-ERANGE, slot)) := by
  refine ⟨by decide, by decide, ?_⟩
  intro s base slot v h45 hk hv
  have hlt : v < U64_MOD := kstrtoull_ok_lt hk
  have hts : toSigned64 v < 0 := by
    unfold toSigned64
    rw [Nat.mod_eq_of_lt hlt, if_neg (by omega : ¬ v < 2 ^ 63)]
    have h1 : (v : Int) < (U64_MOD : Int) := by exact_mod_cast hlt
    omega
  unfold kstrtoll
  rw [if_neg h45, hk]
  dsimp only
  rw [if_neg (by norm_num : ¬ (0 : Int) < 0), if_pos hts]

/-- C3 witness: `C3_kstrtoll_signed_boundaries` applied to the concrete
input `"9223372036854775808"` (no sign, value `2^63`), which fails with
`-ERANGE`. -/
theorem C3_kstrtoll_signed_boundaries_witness :
    kstrtoll (cstr "9223372036854775808") 10 3 = (-ERANGE, 3) :=
  C3_kstrtoll_signed_boundaries.2.2 (cstr "9223372036854775808") 10 3 (2 ^ 63)
    (by decide) (by decide) (by decide)

/-- C4 counterexample: the input `"-+5"`, which the claim says parses
successfully to `-5`, in fact fails with `-EINVAL` (slot 7 untouched),
because the `-` path delegates to the internal `_kstrtoull`, which does
not strip a `+`. -/
theorem C4_counterexample :
    kstrtoll (cstr "-+5") 10 7 = (-EINVAL, 7) ∧ (-EINVAL : Int) ≠ 0 :=
  ⟨by decide, by decide⟩

/-- C4 amended: for inputs starting with `-`, `kstrtoll` parses the
remainder via the internal `_kstrtoull` entry (which does not strip a
`+`) and negates on success; consequently every input of the form
`"-+..."` fails with `-EINVAL`. -/
theorem C4_amended_internal_delegation :
    (∀ (s : List Nat) (base : Nat) (slot : Int) (v : Nat), s.getD 0 0 = 45 →
      Kstrtox._kstrtoull (s.drop 1) base 0 = (0, v) → v ≤ 2 ^ 63 →
      kstrtoll s base slot = (0, -(v : Int))) ∧
    (∀ (ds : List Nat) (base : Nat) (slot : Int),
      kstrtoll (45 :: 43 :: ds) base slot = (-EINVAL, slot)) := by
  constructor
  · intro s base slot v h45 hk hv
    unfold kstrtoll
    rw [if_pos h45, hk]
    dsimp only
    rw [if_neg (by norm_num : ¬ (0 : Int) < 0)]
    rw [toSigned64_wrap_neg hv]
    rw [if_neg (by omega : ¬ -(v : Int) > 0)]
  · intro ds base slot
    have hfix : Kstrtox._parse_integer_fixup_radix (43 :: ds) base =
        (43 :: ds, if base = 0 then 10 else base) := by
      unfold _parse_integer_fixup_radix
      by_cases hb : base = 0 <;> simp [hb, List.getD]
    have hpi : Kstrtox._parse_integer (43 :: ds) (if base = 0 then 10 else base) =
        (0, 0) := by
      unfold _parse_integer parseIntLoop
      simp [digitVal, _tolower]
    have hk : Kstrtox._kstrtoull (43 :: ds) base 0 = (-EINVAL, 0) := by
      unfold _kstrtoull
      rw [hfix]
      dsimp only
      rw [hpi]
      simp
    unfold kstrtoll
    rw [if_pos (show (45 :: 43 :: ds).getD 0 0 = 45 from rfl)]
    rw [show (45 :: 43 :: ds).drop 1 = 43 :: ds from rfl, hk]
    dsimp only
    rw [if_pos (by norm_num [EINVAL] : (-EINVAL : Int) < 0)]

/-- C4 witness: the delegation-and-negation rule of
`C4_amended_internal_delegation` at the concrete input `"-37"`. -/
theorem C4_amended_internal_delegation_witness :
    kstrtoll (cstr "-37") 10 0 = (0, -(37 : Int)) := by
  have h := C4_amended_internal_delegation.1 (cstr "-37") 10 0 37
    (by decide) (by decide) (by decide)
  simpa using h

/-- C7: every width-narrowing wrapper (the unsigned family
`kstrtou_w w` instantiated by `kstrtouint`, `kstrtou16`, `kstrtou8`,
`_kstrtoul`, and the signed family `kstrtos_w w` instantiated by
`kstrtoint`, `kstrtos16`, `kstrtos8`, `_kstrtol`) propagates a failed
64-bit parse unchanged, succeeds exactly when the 64-bit value survives
the narrow-and-widen round trip (writing the narrowed value), and fails
with `-ERANGE` when the round trip changes the value. -/
theorem C7_narrowing_roundtrip :
    (∀ (w : Nat) (s : List Nat) (base slot : Nat) (e : Int) (x : Nat),
      kstrtoull s base 0 = (e, x) → e < 0 → kstrtou_w w s base slot = (e, slot)) ∧
    (∀ (w : Nat) (s : List Nat) (base slot v : Nat), kstrtoull s base 0 = (0, v) →
      (v % 2 ^ w = v → kstrtou_w w s base slot = (0, v)) ∧
      (v % 2 ^ w ≠ v → kstrtou_w w s base slot = (-ERANGE, slot))) ∧
    (∀ (w : Nat) (s : List Nat) (base : Nat) (slot : Int) (e x : Int),
      kstrtoll s base 0 = (e, x) → e < 0 → kstrtos_w w s base slot = (e, slot)) ∧
    (∀ (w : Nat) (s : List Nat) (base : Nat) (slot v : Int),
      kstrtoll s base 0 = (0, v) →
      (wrapS w v = v → kstrtos_w w s base slot = (0, v)) ∧
      (wrapS w v ≠ v → kstrtos_w w s base slot = (-ERANGE, slot))) := by
  refine ⟨?_, ?_, ?_, ?_⟩
  · intro w s base slot e x hk he
    unfold kstrtou_w
    rw [hk]
    dsimp only
    rw [if_pos he]
  · intro w s base slot v hk
    unfold kstrtou_w
    rw [hk]
    dsimp only
    rw [if_neg (by norm_num : ¬ (0 : Int) < 0)]
    constructor
    · intro hr
      rw [if_neg (by omega : ¬ v ≠ v % 2 ^ w), hr]
    · intro hr
      rw [if_pos (by omega : v ≠ v % 2 ^ w)]
  · intro w s base slot e x hk he
    unfold kstrtos_w
    rw [hk]
    dsimp only
    rw [if_pos he]
  · intro w s base slot v hk
    unfold kstrtos_w
    rw [hk]
    dsimp only
    rw [if_neg (by norm_num : ¬ (0 : Int) < 0)]
    constructor
    · intro hr
      rw [if_neg (by simp [hr] : ¬ v ≠ wrapS w v), hr]
    · intro hr
      rw [if_pos (fun hc => hr hc.symm)]

/-- C7 witness: `C7_narrowing_roundtrip` at width 8 on `"255"` (fits,
succeeds) and on `"256"` (round trip fails, `-ERANGE`). -/
theorem C7_narrowing_roundtrip_witness :
    kstrtou_w 8 (cstr "255") 10 0 = (0, 255) ∧
    kstrtou_w 8 (cstr "256") 10 0 = (-ERANGE, 0) :=
  ⟨(C7_narrowing_roundtrip.2.1 8 (cstr "255") 10 0 255 (by decide)).1 (by decide),
   (C7_narrowing_roundtrip.2.1 8 (cstr "256") 10 0 256 (by decide)).2 (by decide)⟩

/-- C8: for every parser in the family — `kstrtoull`, `kstrtoll`, all
width-narrowing wrappers (via their generic forms `kstrtou_w` and
`kstrtos_w`), and `kstrtobool` — any non-zero (error) return leaves the
caller's result slot exactly at its pre-call value. -/
theorem C8_slot_untouched_on_failure :
    (∀ (s : List Nat) (base slot : Nat), (kstrtoull s base slot).1 ≠ 0 →
      (kstrtoull s base slot).2 = slot) ∧
    (∀ (s : List Nat) (base : Nat) (slot : Int), (kstrtoll s base slot).1 ≠ 0 →
      (kstrtoll s base slot).2 = slot) ∧
    (∀ (w : Nat) (s : List Nat) (base slot : Nat), (kstrtou_w w s base slot).1 ≠ 0 →
      (kstrtou_w w s base slot).2 = slot) ∧
    (∀ (w : Nat) (s : List Nat) (base : Nat) (slot : Int),
      (kstrtos_w w s base slot).1 ≠ 0 → (kstrtos_w w s base slot).2 = slot) ∧
    (∀ (s : List Nat) (slot : Bool), (kstrtobool s slot).1 ≠ 0 →
      (kstrtobool s slot).2 = slot) := by
  refine ⟨?_, ?_, ?_, ?_, ?_⟩
  · intro s base slot
    unfold kstrtoull _kstrtoull
    rcases Kstrtox._parse_integer_fixup_radix (afterPlus s) base with ⟨s2, b2⟩
    rcases Kstrtox._parse_integer s2 b2 with ⟨rv, res⟩
    dsimp only
    split_ifs <;> simp
  · intro s base slot
    unfold kstrtoll
    rcases Kstrtox._kstrtoull (s.drop 1) base 0 with ⟨rv1, t1⟩
    rcases kstrtoull s base 0 with ⟨rv2, t2⟩
    dsimp only
    split_ifs <;> simp
  · intro w s base slot
    unfold kstrtou_w
    rcases kstrtoull s base 0 with ⟨rv, tmp⟩
    dsimp only
    split_ifs <;> simp
  · intro w s base slot
    unfold kstrtos_w
    rcases kstrtoll s base 0 with ⟨rv, tmp⟩
    dsimp only
    split_ifs <;> simp
  · intro s slot
    simp only [kstrtobool]
    split_ifs <;> simp

/-- C8 witness: `C8_slot_untouched_on_failure` for `kstrtoull` at the
failing input `"x"` with pre-call slot 5. -/
theorem C8_slot_untouched_on_failure_witness :
    (kstrtoull (cstr "x") 10 5).1 ≠ 0 ∧ (kstrtoull (cstr "x") 10 5).2 = 5 :=
  ⟨by decide, C8_slot_untouched_on_failure.1 (cstr "x") 10 5 (by decide)⟩

/-- One step of the accumulation loop on a valid digit below the base
(with a clear overflow flag): consume it and keep the flag clear. -/
theorem parseIntLoop_cons_digit (c base val res rv : Nat) (l : List Nat)
    (hd : digitVal c = some val) (hvb : val < base) (hres : res < U64_MOD) :
    parseIntLoop (c :: l) base res rv false =
      parseIntLoop l base ((res * base + val) % U64_MOD) ((rv + 1) % U32_MOD)
        false := by
  have hval : val / base = 0 := Nat.div_eq_of_lt hvb
  have hcond : ¬ (res > ULLONG_MAX - val / base) := by
    rw [hval]
    unfold ULLONG_MAX
    unfold U64_MOD at hres
    omega
  simp only [parseIntLoop, hd]
  rw [if_neg (not_le.mpr hvb), if_neg hcond]
  simp

/-- The accumulation loop stops at `'a'` in base 10 (digit value 10 is
not below the base). -/
theorem parseIntLoop_stop_a (l : List Nat) (res rv : Nat) (ov : Bool) :
    parseIntLoop (97 :: l) 10 res rv ov = (res, rv, ov) := by
  simp only [parseIntLoop, show digitVal 97 = some 10 from by decide]
  norm_num

/-- Running the accumulation loop over `n` copies of `'1'` in base 10
consumes them all, advancing the count by `n` modulo `2^32`. -/
theorem parseIntLoop_replicate_49 (t : List Nat) :
    ∀ (n res rv : Nat), res < U64_MOD → rv < U32_MOD →
    ∃ res2, res2 < U64_MOD ∧
      parseIntLoop (List.replicate n 49 ++ t) 10 res rv false =
        parseIntLoop t 10 res2 ((rv + n) % U32_MOD) false := by
  intro n
  induction n with
  | zero =>
    intro res rv hres hrv
    exact ⟨res, hres, by simp [Nat.mod_eq_of_lt hrv]⟩
  | succ n ih =>
    intro res rv hres hrv
    have hstep := parseIntLoop_cons_digit 49 10 1 res rv
      (List.replicate n 49 ++ t) (by decide) (by norm_num) hres
    rw [List.replicate_succ, List.cons_append, hstep]
    obtain ⟨res2, hres2, heq⟩ := ih ((res * 10 + 1) % U64_MOD) ((rv + 1) % U32_MOD)
      (Nat.mod_lt _ (by norm_num [U64_MOD])) (Nat.mod_lt _ (by norm_num [U32_MOD]))
    refine ⟨res2, hres2, ?_⟩
    rw [heq]
    congr 1
    simp only [U32_MOD]
    omega

/-- With an explicit base 10 the radix fixup is the identity. -/
theorem fixup_base10 (s : List Nat) :
    Kstrtox._parse_integer_fixup_radix s 10 = (s, 10) := by
  unfold _parse_integer_fixup_radix
  norm_num

/-- `kstrtoull` strips nothing when the first byte is not `'+'`. -/
theorem afterPlus_eq_self {s : List Nat} (h : s.getD 0 0 ≠ 43) :
    afterPlus s = s := by
  unfold afterPlus
  rw [if_neg h]

/-- `_parse_integer`'s outputs, read off a completed loop run whose
overflow flag is clear. -/
theorem _parse_integer_of_loop {s : List Nat} {base res2 rv2 : Nat}
    (h : parseIntLoop s base 0 0 false = (res2, rv2, false)) :
    Kstrtox._parse_integer s base = (rv2, res2) := by
  unfold _parse_integer
  rw [h]
  rfl

/-- When the consumed count is exactly `2^31` it aliases the
`KSTRTOX_OVERFLOW` bit, and `kstrtoull` fails with `-ERANGE`. -/
theorem kstrtoull_count_bit {s : List Nat} {base slot res2 : Nat}
    (hap : afterPlus s = s)
    (hfix : Kstrtox._parse_integer_fixup_radix s base = (s, base))
    (hpi : Kstrtox._parse_integer s base = (2 ^ 31, res2)) :
    kstrtoull s base slot = (-ERANGE, slot) := by
  unfold kstrtoull _kstrtoull
  rw [hap, hfix]
  dsimp only
  rw [hpi]
  dsimp only
  rw [if_pos (by
    rw [show KSTRTOX_OVERFLOW = 2 ^ 31 from by decide, Nat.and_self]
    positivity)]

/-- C6 counterexample: on an input of `2^31` digit characters `'1'`
followed by `"abc"` there is trailing junk after the digits, yet
`kstrtoull` fails with `-ERANGE` rather than `-EINVAL`: the consumed
count `2^31` collides with the `KSTRTOX_OVERFLOW` bit packed into the
same `unsigned int`. -/
theorem C6_counterexample :
    kstrtoull (List.replicate (2 ^ 31) 49 ++ [97, 98, 99]) 10 0 = (-ERANGE, 0) ∧
    (-ERANGE : Int) ≠ -EINVAL := by
  constructor
  · obtain ⟨res2, hres2, heq⟩ := parseIntLoop_replicate_49 [97, 98, 99] (2 ^ 31) 0 0
      (by norm_num [U64_MOD]) (by norm_num [U32_MOD])
    rw [show (0 + 2 ^ 31) % U32_MOD = 2 ^ 31 by norm_num [U32_MOD]] at heq
    rw [parseIntLoop_stop_a] at heq
    have hhead : (List.replicate (2 ^ 31) 49 ++ [97, 98, 99]).getD 0 0 = 49 := by
      rw [show (2 ^ 31 : Nat) = 2 ^ 31 - 1 + 1 by norm_num, List.replicate_succ]
      rfl
    exact kstrtoull_count_bit (afterPlus_eq_self (by rw [hhead]; norm_num))
      (fixup_base10 _) (Kstrtox._parse_integer_of_loop heq)
  · norm_num [ERANGE, EINVAL]

/-- Dropping elements preserves the absence of a byte. -/
theorem not_mem_drop {s : List Nat} {k : Nat} (h : 0 ∉ s) : 0 ∉ s.drop k :=
  fun hc => h (List.mem_of_mem_drop hc)

/-- The radix fixup returns a suffix of its input, so it preserves the
absence of NUL bytes. -/
theorem not_mem_fixup {s : List Nat} {base : Nat} (h : 0 ∉ s) :
    0 ∉ (Kstrtox._parse_integer_fixup_radix s base).1 := by
  simp only [Kstrtox._parse_integer_fixup_radix]
  split_ifs <;> first | exact h | exact not_mem_drop h

/-- Stripping a `+` returns a suffix of the input, preserving the
absence of NUL bytes. -/
theorem not_mem_afterPlus {s : List Nat} (h : 0 ∉ s) : 0 ∉ afterPlus s := by
  unfold afterPlus
  split_ifs <;> first | exact h | exact not_mem_drop h

/-- For a NUL-free remainder `r`, the check `_kstrtoull` performs after
the digits (skip one newline, then demand the terminator) fails exactly
when `r` is neither empty nor a single newline. -/
theorem trailing_iff {r : List Nat} (h : 0 ∉ r) :
    ((if r.getD 0 0 = 10 then r.drop 1 else r).getD 0 0 ≠ 0) ↔
      (r ≠ [] ∧ r ≠ [10]) := by
  match r with
  | [] => simp
  | a :: t =>
    have ha : a ≠ 0 := fun h0 => h (by simp [h0])
    by_cases h10 : a = 10
    · subst h10
      match t with
      | [] => simp
      | b :: t2 =>
        have hb : b ≠ 0 := fun h0 => h (by simp [h0])
        simp [hb]
    · simp [h10, ha]

/-- C6 amended: provided fewer than `2^31` digit characters are
consumed (otherwise the count collides with the internal overflow bit
and `-ERANGE` results, see the counterexample), `kstrtoull` fails with
`-EINVAL` exactly when zero digit characters are consumed or when the
remainder after the digits is neither empty nor a single newline;
`"123abc"`, `"123\n\n"` and `"-1"` fail with `-EINVAL` (not `-ERANGE`),
while `"+1"` yields 1 and `"123\n"` yields 123. -/
theorem C6_amended_invalid_conditions :
    (∀ (s : List Nat) (base slot : Nat), 0 ∉ s → consumed s base < 2 ^ 31 →
      ((kstrtoull s base slot).1 = -EINVAL ↔
        (consumed s base = 0 ∨
          (restAfter s base ≠ [] ∧ restAfter s base ≠ [10])))) ∧
    kstrtoull (cstr "123abc") 10 0 = (-EINVAL, 0) ∧
    kstrtoull (cstr "123\n\n") 10 0 = (-EINVAL, 0) ∧
    kstrtoull (cstr "-1") 10 0 = (-EINVAL, 0) ∧
    (-EINVAL : Int) ≠ -ERANGE ∧
    kstrtoull (cstr "+1") 10 0 = (0, 1) ∧
    kstrtoull (cstr "123\n") 10 0 = (0, 123) := by
  refine ⟨?_, by decide, by decide, by decide, by norm_num [EINVAL, ERANGE],
    by decide, by decide⟩
  intro s base slot h0 hlt
  have h0' : 0 ∉ afterPlus s := not_mem_afterPlus h0
  have h0'' : 0 ∉ (Kstrtox._parse_integer_fixup_radix (afterPlus s) base).1 :=
    not_mem_fixup h0'
  rcases hfix : Kstrtox._parse_integer_fixup_radix (afterPlus s) base with ⟨s2, b2⟩
  rw [hfix] at h0''
  dsimp only at h0''
  have hcon : consumed s base = digitRun s2 b2 := by
    simp only [consumed, effStr, effBase]
    rw [hfix]
  have hrest : restAfter s base = s2.drop (digitRun s2 b2) := by
    simp only [restAfter, consumed, effStr, effBase]
    rw [hfix]
  rw [hcon] at hlt
  rw [hcon, hrest]
  have hrv : (Kstrtox._parse_integer s2 b2).1 = digitRun s2 b2 := by
    rw [Kstrtox._parse_integer_rv]
    exact Nat.mod_eq_of_lt (lt_trans hlt (by norm_num [U32_MOD]))
  rcases hpi : Kstrtox._parse_integer s2 b2 with ⟨rv, res⟩
  rw [hpi] at hrv
  dsimp only at hrv
  unfold kstrtoull _kstrtoull
  rw [hfix]
  dsimp only
  rw [hpi]
  dsimp only
  subst hrv
  rw [if_neg (by rw [and_overflow_eq_zero hlt]; norm_num)]
  by_cases hd0 : digitRun s2 b2 = 0
  · rw [if_pos hd0]
    exact iff_of_true rfl (Or.inl hd0)
  · rw [if_neg hd0]
    have h0r : 0 ∉ s2.drop (digitRun s2 b2) := not_mem_drop h0''
    have htr := trailing_iff h0r
    by_cases hc : (if (s2.drop (digitRun s2 b2)).getD 0 0 = 10 then
        (s2.drop (digitRun s2 b2)).drop 1
        else s2.drop (digitRun s2 b2)).getD 0 0 ≠ 0
    · rw [if_pos hc]
      exact iff_of_true rfl (Or.inr (htr.mp hc))
    · rw [if_neg hc]
      refine iff_of_false (by norm_num [EINVAL]) ?_
      rintro (h | h)
      · exact hd0 h
      · exact hc (htr.mpr h)

/-- C6 amended witness: `C6_amended_invalid_conditions` at the concrete
input `"12 3"` (NUL-free, 2 digits consumed), whose trailing `" 3"`
makes the parse fail with `-EINVAL`. -/
theorem C6_amended_invalid_conditions_witness :
    (kstrtoull (cstr "12 3") 10 0).1 = -EINVAL ↔
      (consumed (cstr "12 3") 10 = 0 ∨
        (restAfter (cstr "12 3") 10 ≠ [] ∧ restAfter (cstr "12 3") 10 ≠ [10])) :=
  C6_amended_invalid_conditions.1 (cstr "12 3") 10 0 (by decide) (by decide)

end Kstrtox
